import Mathlib

/-!
Shallow embedding of `src/Metacritic-games-scraper.py`.

The script scrapes paginated game listings, extracts per-game fields with
sentinel fallbacks (`extract_game_data`), drives a pagination loop per scope,
and merges per-platform record sets onto a baseline table
(`merge_platform_dfs`).  HTML nodes are modelled by their text segments
(`Tag`), documents by the list of listing fragments, and the network by a
function from page number to a fetch outcome.  Python string operations and
the two regular expressions are modelled character-by-character on `List Char`
(ASCII-range behaviour, which is all the scraper relies on).
-/

set_option maxRecDepth 8000

namespace Metacritic

/-- Whitespace test used to model Python `str.strip` and the regex class `\s`. -/
def isSpaceChar (c : Char) : Bool := c.isWhitespace

/-- Word-character test modelling the regex class `\w` (ASCII range). -/
def isWordChar (c : Char) : Bool := c.isAlphanum || c = '_'

/-- Numeric value of a digit character. -/
def digitVal (c : Char) : Nat := c.toNat - '0'.toNat

/-- Python `str.strip` on a character list: drop whitespace at both ends. -/
def stripChars (l : List Char) : List Char :=
  ((l.dropWhile isSpaceChar).reverse.dropWhile isSpaceChar).reverse

/-- Python `str.strip`. -/
def pyStrip (s : String) : String := String.mk (stripChars s.data)

/-- Python `c in s` for a single character `c`. -/
def containsChar (c : Char) (s : String) : Bool := s.data.contains c

/-- Python `str.split(sep)` for a one-character separator, on character lists.
`""` splits to `[""]`, as in Python. -/
def splitCharList (sep : Char) : List Char → List (List Char)
  | [] => [[]]
  | x :: xs =>
    match splitCharList sep xs with
    | [] => [[]]
    | t :: ts => if x = sep then [] :: t :: ts else (x :: t) :: ts

/-- Python `str.split(sep)` for a one-character separator. -/
def pySplit (sep : Char) (s : String) : List String :=
  (splitCharList sep s.data).map String.mk

/-- Join a list of strings with a separator (Python `sep.join`). -/
def joinSep (sep : String) : List String → String
  | [] => ""
  | [s] => s
  | s :: rest => s ++ sep ++ joinSep sep rest

/-- An HTML node, modelled by the list of its text segments in document order. -/
structure Tag where
  strings : List String
deriving DecidableEq, Repr

/-- BeautifulSoup `get_text()`: concatenation of all text segments. -/
def Tag.getText (t : Tag) : String := String.join t.strings

/-- BeautifulSoup `get_text(strip=True, separator=sep)`: each segment stripped,
segments that become empty dropped, the rest joined with `sep`. -/
def Tag.getTextStripSep (t : Tag) (sep : String) : String :=
  joinSep sep ((t.strings.map pyStrip).filter (fun s => s ≠ ""))

/-- BeautifulSoup `get_text(strip=True)` (default separator `""`). -/
def Tag.getTextStrip (t : Tag) : String := t.getTextStripSep ""

/-! ## The title regex `^\d{1,3}(,\d{3})*\.`

`re.sub` with an anchored pattern removes at most one match, at the start of
the string.  `\d{1,3}` is greedy with backtracking (3, then 2, then 1 digits);
the star `(,\d{3})*` is greedy, and since a group starts with `,` while the
following literal is `.`, only the maximal number of group repetitions can be
followed by the literal dot, so no backtracking is needed inside the star. -/

/-- Consume exactly `n` digit characters. -/
def dropDigits : Nat → List Char → Option (List Char)
  | 0, l => some l
  | _ + 1, [] => none
  | n + 1, c :: l => if c.isDigit then dropDigits n l else none

/-- Consume a maximal run of `,\d{3}` groups. -/
def dropGroups : List Char → List Char
  | c0 :: a :: b :: c :: rest =>
    if c0 = ',' && a.isDigit && b.isDigit && c.isDigit then dropGroups rest
    else c0 :: a :: b :: c :: rest
  | l => l

/-- One alternative of the leading-number match: `n` digits, then the groups,
then a literal dot; returns the remainder after the match. -/
def enumTail (n : Nat) (l : List Char) : Option (List Char) :=
  match dropDigits n l with
  | none => none
  | some l1 =>
    match dropGroups l1 with
    | '.' :: rest => some rest
    | _ => none

/-- Match `\d{1,3}(,\d{3})*\.` at the start of `l`, trying the digit counts in
the regex's greedy order. -/
def enumMatch (l : List Char) : Option (List Char) :=
  match enumTail 3 l with
  | some r => some r
  | none =>
    match enumTail 2 l with
    | some r => some r
    | none => enumTail 1 l

/-- Python `re.sub(r"^\d{1,3}(,\d{3})*\.", "", s)`. -/
def subEnum (s : String) : String :=
  match enumMatch s.data with
  | some rest => String.mk rest
  | none => s

/-! ## `datetime.strptime(s, "%b %d, %Y")` and `strftime("%Y-%m-%d")`

CPython compiles the format to a regex: `%b` is the case-insensitive month
abbreviation, a literal space becomes `\s+`, `%d` is
`3[01]|[12]\d|0[1-9]|[1-9]` (alternatives tried in this order, with
backtracking against the rest of the pattern), `%Y` is exactly four digits;
the whole string must be consumed, and `datetime` construction then checks
calendar validity (day within the month, year at least 1). -/

/-- C-locale month abbreviations, lowercased, with month numbers. -/
def monthAbbrevs : List (String × Nat) :=
  [("jan", 1), ("feb", 2), ("mar", 3), ("apr", 4), ("may", 5), ("jun", 6),
   ("jul", 7), ("aug", 8), ("sep", 9), ("oct", 10), ("nov", 11), ("dec", 12)]

/-- `%b`: a case-insensitive three-letter month abbreviation at the head. -/
def parseMonth (l : List Char) : Option (Nat × List Char) :=
  match l with
  | c1 :: c2 :: c3 :: rest =>
    match monthAbbrevs.find? (fun p => p.1.data == [c1, c2, c3].map Char.toLower) with
    | some p => some (p.2, rest)
    | none => none
  | _ => none

/-- `\s+`: at least one whitespace character, consumed greedily. -/
def dropWs1 (l : List Char) : Option (List Char) :=
  match l with
  | c :: rest => if isSpaceChar c then some (rest.dropWhile isSpaceChar) else none
  | [] => none

/-- `%d` alternatives `3[01]|[12]\d|0[1-9]|[1-9]` in regex order, each paired
with its remainder. -/
def dayAlts : List Char → List (Nat × List Char)
  | c1 :: c2 :: rest =>
    (if c1 = '3' && (c2 = '0' || c2 = '1') then [(30 + digitVal c2, rest)] else []) ++
    (if (c1 = '1' || c1 = '2') && c2.isDigit then [(10 * digitVal c1 + digitVal c2, rest)] else []) ++
    (if c1 = '0' && c2.isDigit && c2 ≠ '0' then [(digitVal c2, rest)] else []) ++
    (if c1.isDigit && c1 ≠ '0' then [(digitVal c1, c2 :: rest)] else [])
  | [c1] => if c1.isDigit && c1 ≠ '0' then [(digitVal c1, [])] else []
  | [] => []

/-- `%Y`: exactly four digits. -/
def parseYear (l : List Char) : Option (Nat × List Char) :=
  match l with
  | a :: b :: c :: d :: rest =>
    if a.isDigit && b.isDigit && c.isDigit && d.isDigit then
      some (1000 * digitVal a + 100 * digitVal b + 10 * digitVal c + digitVal d, rest)
    else none
  | _ => none

def isLeapYear (y : Nat) : Bool := y % 4 = 0 && (y % 100 ≠ 0 || y % 400 = 0)

def daysInMonth (y m : Nat) : Nat :=
  if m = 2 then (if isLeapYear y then 29 else 28)
  else if m = 4 || m = 6 || m = 9 || m = 11 then 30 else 31

/-- After a candidate day: the literal comma, `\s+`, `%Y`, end of string, and
the `datetime` calendar-validity checks. -/
def finishAfterDay (m d : Nat) (l : List Char) : Option (Nat × Nat × Nat) :=
  match l with
  | ',' :: rest =>
    match dropWs1 rest with
    | some rest2 =>
      match parseYear rest2 with
      | some (y, []) => if 1 ≤ y && d ≤ daysInMonth y m then some (y, m, d) else none
      | _ => none
    | none => none
  | _ => none

/-- Try the `%d` alternatives in regex order against the rest of the pattern. -/
def tryDays (m : Nat) : List (Nat × List Char) → Option (Nat × Nat × Nat)
  | [] => none
  | (d, rest) :: others =>
    match finishAfterDay m d rest with
    | some r => some r
    | none => tryDays m others

/-- `datetime.strptime(s, "%b %d, %Y")`, as `(year, month, day)`; `none` is the
`ValueError` path. -/
def strptimeBdY (s : String) : Option (Nat × Nat × Nat) :=
  match parseMonth s.data with
  | none => none
  | some (m, rest) =>
    match dropWs1 rest with
    | none => none
    | some rest2 => tryDays m (dayAlts rest2)

/-- Two-digit zero-padded decimal. -/
def pad2 (n : Nat) : String := String.mk [Nat.digitChar (n / 10 % 10), Nat.digitChar (n % 10)]

/-- Four-digit zero-padded decimal. -/
def pad4 (n : Nat) : String :=
  String.mk [Nat.digitChar (n / 1000 % 10), Nat.digitChar (n / 100 % 10),
             Nat.digitChar (n / 10 % 10), Nat.digitChar (n % 10)]

/-- `strftime("%Y-%m-%d")` on a parsed `(year, month, day)`. -/
def formatYmd (ymd : Nat × Nat × Nat) : String :=
  pad4 ymd.1 ++ "-" ++ pad2 ymd.2.1 ++ "-" ++ pad2 ymd.2.2

/-! ## The rating regex `Rated\s+(\w+)` under `re.search` -/

/-- Match `Rated\s+(\w+)` at the head of `l`, returning the captured word.
`\s` and `\w` are disjoint, so greedy whitespace needs no backtracking. -/
def matchRatedHere (l : List Char) : Option (List Char) :=
  match l with
  | 'R' :: 'a' :: 't' :: 'e' :: 'd' :: rest =>
    match dropWs1 rest with
    | some rest2 =>
      match rest2.takeWhile isWordChar with
      | [] => none
      | w => some w
    | none => none
  | _ => none

/-- `re.search(r"Rated\s+(\w+)", s)`: first position where the pattern
matches, scanning left to right. -/
def searchRated : List Char → Option (List Char)
  | [] => none
  | c :: rest =>
    match matchRatedHere (c :: rest) with
    | some w => some w
    | none => searchRated rest

/-! ## `extract_game_data` -/

/-- One listing fragment (`<a class="c-finderProductCard_container">`): the
four sub-fragments `find` can return, each present or absent. -/
structure GameListing where
  title_section : Option Tag
  meta_info_section : Option Tag
  description_section : Option Tag
  metascore_section : Option Tag
deriving DecidableEq, Repr

/-- One extracted record: the dict appended to `games_data`. -/
structure GameData where
  title : String
  release_date : String
  rating : String
  description : String
  metascore : String
deriving DecidableEq, Repr

/-- Title field: `re.sub(...).strip()` of the stripped text, else the sentinel. -/
def extractTitle (t : Option Tag) : String :=
  match t with
  | some ts => pyStrip (subEnum ts.getTextStrip)
  | none => "Title not found"

/-- `meta_info_section.get_text(strip=True, separator="|").split("|")`. -/
def metaTokens (t : Tag) : List String :=
  pySplit '|' (t.getTextStripSep "|")

/-- Release-date field from the meta section: first comma-bearing token,
stripped and parsed; `"Unknown"` on the `IndexError` / `ValueError` paths. -/
def extractReleaseDate (t : Tag) : String :=
  match (metaTokens t).filter (fun s => containsChar ',' s) with
  | [] => "Unknown"
  | tok :: _ =>
    match strptimeBdY (pyStrip tok) with
    | some ymd => formatYmd ymd
    | none => "Unknown"

/-- Rating field from the meta section: `re.search(r"Rated\s+(\w+)", get_text())`. -/
def extractRating (t : Tag) : String :=
  match searchRated t.getText.data with
  | some w => String.mk w
  | none => "Rating not found"

/-- Extraction of one listing fragment: the body of the `for game in
game_listings` loop. -/
def extractGame (g : GameListing) : GameData :=
  { title := extractTitle g.title_section
    release_date :=
      match g.meta_info_section with
      | some mt => extractReleaseDate mt
      | none => "Unknown"
    rating :=
      match g.meta_info_section with
      | some mt => extractRating mt
      | none => "Rating not found"
    description :=
      match g.description_section with
      | some d => d.getTextStrip
      | none => "Description not found"
    metascore :=
      match g.metascore_section with
      | some ms => ms.getTextStrip
      | none => "Metascore not available" }

/-- `extract_game_data(soup)`: one record per listing fragment, in order. -/
def extract_game_data (doc : List GameListing) : List GameData :=
  doc.map extractGame

/-! ## `fetch_and_parse` and the pagination loops -/

/-- Outcome of `requests.get`: either the call raises a transport exception,
or it returns a response with a status code and (parsed) content. -/
inductive FetchOutcome where
  | raised : FetchOutcome
  | response (status : Nat) (doc : List GameListing) : FetchOutcome
deriving DecidableEq, Repr

/-- `fetch_and_parse(url)`: `requests.get` is not wrapped in a handler, so a
transport exception propagates (`Except.error`); a 200 response yields the
parsed document, any other status is logged and yields `None`. -/
def fetch_and_parse (o : FetchOutcome) : Except Unit (Option (List GameListing)) :=
  match o with
  | .raised => .error ()
  | .response status doc => if status = 200 then .ok (some doc) else .ok none

/-- The `while True` pagination loop, shared by the baseline and per-platform
scopes.  `net` maps a page number to that page's fetch outcome; `acc` is
`all_games_data`; `att` counts completed fetch attempts.  `fuel` bounds the
number of iterations we unfold: `none` means the bound was hit, so every
`some` result is one the loop really reaches.  A raised transport exception
escapes the loop (`Except.error`); a `None` soup or a page with no listing
fragments breaks out of the loop with the accumulator. -/
def scrapeLoop (net : Nat → FetchOutcome) :
    Nat → Nat → List GameData → Nat → Option (Except Unit (List GameData × Nat))
  | 0, _, _, _ => none
  | fuel + 1, page, acc, att =>
    match fetch_and_parse (net page) with
    | .error e => some (.error e)
    | .ok none => some (.ok (acc, att + 1))
    | .ok (some doc) =>
      if doc.isEmpty then some (.ok (acc, att + 1))
      else scrapeLoop net fuel (page + 1) (acc ++ extract_game_data doc) (att + 1)

/-- One scope's pagination run: page counter starts at 1, accumulator empty. -/
def collectScope (net : Nat → FetchOutcome) (fuel : Nat) :
    Option (Except Unit (List GameData × Nat)) :=
  scrapeLoop net fuel 1 [] 0

/-! ## `merge_platform_dfs` -/

/-- One row of the merged table: the baseline record plus the two list-valued
columns added by `merge_platform_dfs`. -/
structure EnrichedGame where
  data : GameData
  platforms : List String
  platform_scores : List String
deriving DecidableEq, Repr

/-- The body of the `for i in matched_idx` loop for one main-table row: if the
titles match and the platform is not yet recorded for this row, append the
platform and the row's metascore. -/
def updateRecord (platform : String) (row : GameData) (r : EnrichedGame) : EnrichedGame :=
  if r.data.title = row.title ∧ platform ∉ r.platforms then
    { r with
      platforms := r.platforms ++ [platform]
      platform_scores := r.platform_scores ++ [row.metascore] }
  else r

/-- Processing one platform row against the whole main table.  The matched
index set is computed from titles only, and titles are never mutated, so the
Python `matched_idx` loop is a pointwise update of the main table. -/
def mergeRow (main : List EnrichedGame) (platform : String) (row : GameData) :
    List EnrichedGame :=
  main.map (updateRecord platform row)

/-- Processing one platform's dataframe, row by row (`platform_df.iterrows()`). -/
def mergeRows (main : List EnrichedGame) (platform : String) (rows : List GameData) :
    List EnrichedGame :=
  rows.foldl (fun m row => mergeRow m platform row) main

/-- Processing every platform in dictionary (insertion) order. -/
def mergeAux (main : List EnrichedGame) (platform_dfs : List (String × List GameData)) :
    List EnrichedGame :=
  platform_dfs.foldl (fun m pr => mergeRows m pr.1 pr.2) main

/-- Initialization of the `platforms` / `platform_scores` columns to empty
lists, one pair per main-table row. -/
def initEnriched (main : List GameData) : List EnrichedGame :=
  main.map (fun g => ⟨g, [], []⟩)

/-- `merge_platform_dfs(main_df, platform_dfs)` with the platform dictionary
as an association list in insertion order. -/
def merge_platform_dfs (main : List GameData) (platform_dfs : List (String × List GameData)) :
    List EnrichedGame :=
  mergeAux (initEnriched main) platform_dfs

/-- The per-record effect of one platform's rows: fold `updateRecord` over the
rows, on a single main-table record. -/
def enrichRowsFold (platform : String) (rows : List GameData) (r : EnrichedGame) : EnrichedGame :=
  rows.foldl (fun r row => updateRecord platform row r) r

/-- The per-record effect of the whole merge: fold over all platforms. -/
def enrichSteps (platform_dfs : List (String × List GameData)) (r : EnrichedGame) : EnrichedGame :=
  platform_dfs.foldl (fun r pr => enrichRowsFold pr.1 pr.2 r) r

theorem updateRecord_data (p : String) (row : GameData) (r : EnrichedGame) :
    (updateRecord p row r).data = r.data := by
  unfold updateRecord
  split <;> rfl

theorem updateRecord_len (p : String) (row : GameData) (r : EnrichedGame)
    (h : r.platforms.length = r.platform_scores.length) :
    (updateRecord p row r).platforms.length = (updateRecord p row r).platform_scores.length := by
  unfold updateRecord
  split <;> simp [h]

theorem updateRecord_nodup (p : String) (row : GameData) (r : EnrichedGame)
    (h : r.platforms.Nodup) : (updateRecord p row r).platforms.Nodup := by
  unfold updateRecord
  split
  · next hc => simp [List.nodup_append, h, hc.2]
  · exact h

theorem updateRecord_of_ne (p : String) (row : GameData) (r : EnrichedGame)
    (h : r.data.title ≠ row.title) : updateRecord p row r = r := by
  unfold updateRecord
  rw [if_neg]
  intro hc
  exact h hc.1

theorem mergeRows_eq_map (p : String) (rows : List GameData) :
    ∀ main : List EnrichedGame, mergeRows main p rows = main.map (enrichRowsFold p rows) := by
  induction rows with
  | nil =>
    intro main
    simp [mergeRows, enrichRowsFold]
    exact (List.map_id main).symm
  | cons row rows ih =>
    intro main
    show mergeRows (mergeRow main p row) p rows = _
    rw [ih (mergeRow main p row)]
    simp only [mergeRow, List.map_map]
    rfl

theorem mergeAux_eq_map (platform_dfs : List (String × List GameData)) :
    ∀ main : List EnrichedGame, mergeAux main platform_dfs = main.map (enrichSteps platform_dfs) := by
  induction platform_dfs with
  | nil =>
    intro main
    simp [mergeAux, enrichSteps]
    exact (List.map_id main).symm
  | cons pr prs ih =>
    intro main
    show mergeAux (mergeRows main pr.1 pr.2) prs = _
    rw [ih (mergeRows main pr.1 pr.2), mergeRows_eq_map]
    simp only [List.map_map]
    rfl

theorem merge_eq_map (main : List GameData) (platform_dfs : List (String × List GameData)) :
    merge_platform_dfs main platform_dfs =
      main.map (fun g => enrichSteps platform_dfs ⟨g, [], []⟩) := by
  rw [merge_platform_dfs, mergeAux_eq_map, initEnriched, List.map_map]
  rfl

theorem enrichRowsFold_data (p : String) (rows : List GameData) :
    ∀ r : EnrichedGame, (enrichRowsFold p rows r).data = r.data := by
  induction rows with
  | nil => intro r; rfl
  | cons row rows ih =>
    intro r
    show (enrichRowsFold p rows (updateRecord p row r)).data = r.data
    rw [ih, updateRecord_data]

theorem enrichSteps_data (platform_dfs : List (String × List GameData)) :
    ∀ r : EnrichedGame, (enrichSteps platform_dfs r).data = r.data := by
  induction platform_dfs with
  | nil => intro r; rfl
  | cons pr prs ih =>
    intro r
    show (enrichSteps prs (enrichRowsFold pr.1 pr.2 r)).data = r.data
    rw [ih, enrichRowsFold_data]

theorem enrichRowsFold_len (p : String) (rows : List GameData) :
    ∀ r : EnrichedGame, r.platforms.length = r.platform_scores.length →
      (enrichRowsFold p rows r).platforms.length =
        (enrichRowsFold p rows r).platform_scores.length := by
  induction rows with
  | nil => intro r h; exact h
  | cons row rows ih =>
    intro r h
    exact ih (updateRecord p row r) (updateRecord_len p row r h)

theorem enrichSteps_len (platform_dfs : List (String × List GameData)) :
    ∀ r : EnrichedGame, r.platforms.length = r.platform_scores.length →
      (enrichSteps platform_dfs r).platforms.length =
        (enrichSteps platform_dfs r).platform_scores.length := by
  induction platform_dfs with
  | nil => intro r h; exact h
  | cons pr prs ih =>
    intro r h
    exact ih (enrichRowsFold pr.1 pr.2 r) (enrichRowsFold_len pr.1 pr.2 r h)

theorem enrichRowsFold_nodup (p : String) (rows : List GameData) :
    ∀ r : EnrichedGame, r.platforms.Nodup → (enrichRowsFold p rows r).platforms.Nodup := by
  induction rows with
  | nil => intro r h; exact h
  | cons row rows ih =>
    intro r h
    exact ih (updateRecord p row r) (updateRecord_nodup p row r h)

theorem enrichSteps_nodup (platform_dfs : List (String × List GameData)) :
    ∀ r : EnrichedGame, r.platforms.Nodup → (enrichSteps platform_dfs r).platforms.Nodup := by
  induction platform_dfs with
  | nil => intro r h; exact h
  | cons pr prs ih =>
    intro r h
    exact ih (enrichRowsFold pr.1 pr.2 r) (enrichRowsFold_nodup pr.1 pr.2 r h)

theorem enrichRowsFold_of_ne (p : String) (rows : List GameData) :
    ∀ r : EnrichedGame, (∀ row ∈ rows, row.title ≠ r.data.title) →
      enrichRowsFold p rows r = r := by
  induction rows with
  | nil => intro r _; rfl
  | cons row rows ih =>
    intro r h
    show enrichRowsFold p rows (updateRecord p row r) = r
    rw [updateRecord_of_ne p row r (fun he => h row (by simp) he.symm)]
    exact ih r (fun row hm => h row (by simp [hm]))

theorem enrichSteps_of_ne (platform_dfs : List (String × List GameData)) :
    ∀ r : EnrichedGame, (∀ pr ∈ platform_dfs, ∀ row ∈ pr.2, row.title ≠ r.data.title) →
      enrichSteps platform_dfs r = r := by
  induction platform_dfs with
  | nil => intro r _; rfl
  | cons pr prs ih =>
    intro r h
    show enrichSteps prs (enrichRowsFold pr.1 pr.2 r) = r
    rw [enrichRowsFold_of_ne pr.1 pr.2 r (fun row hm => h pr (by simp) row hm)]
    exact ih r (fun q hq row hm => h q (by simp [hq]) row hm)

theorem enrichRowsFold_append (p : String) (rows1 rows2 : List GameData) (r : EnrichedGame) :
    enrichRowsFold p (rows1 ++ rows2) r = enrichRowsFold p rows2 (enrichRowsFold p rows1 r) :=
  List.foldl_append ..

theorem enrichSteps_append (l1 l2 : List (String × List GameData)) (r : EnrichedGame) :
    enrichSteps (l1 ++ l2) r = enrichSteps l2 (enrichSteps l1 r) :=
  List.foldl_append ..

/-! ## Sample data for concrete instances -/

/-- A concrete record titled "Game X" with metascore "85". -/
def gameX85 : GameData :=
  ⟨"Game X", "2020-01-05", "M", "A description", "85"⟩

/-- A second concrete record also titled "Game X", metascore "90". -/
def gameX90 : GameData :=
  ⟨"Game X", "Unknown", "Rating not found", "Another description", "90"⟩

/-- A record whose title differs from "Game X" only by letter case. -/
def gameXlower : GameData :=
  ⟨"game x", "Unknown", "Rating not found", "Lowercase twin", "70"⟩

/-! ## Claim theorems for the merge step -/

/-- C7: during reconciliation every platform identifier is appended to a
record's `platforms` at most once (count ≤ 1 in every merged record), and on
a category set containing two records both titled "Game X" merged against a
baseline with one "Game X" record, the platform appears exactly once, paired
with the first occurrence's metascore. -/
theorem c7_merge_dedup :
    (∀ (main : List GameData) (platform_dfs : List (String × List GameData))
        (r : EnrichedGame), r ∈ merge_platform_dfs main platform_dfs →
        ∀ p : String, r.platforms.count p ≤ 1) ∧
    merge_platform_dfs [gameX85] [("ps5", [gameX85, gameX90])] =
      [⟨gameX85, ["ps5"], ["85"]⟩] := by
  constructor
  · intro main platform_dfs r hr p
    rw [merge_eq_map] at hr
    obtain ⟨g, _, rfl⟩ := List.mem_map.1 hr
    have hnd : (enrichSteps platform_dfs ⟨g, [], []⟩).platforms.Nodup :=
      enrichSteps_nodup platform_dfs ⟨g, [], []⟩ (by simp)
    exact List.nodup_iff_count_le_one.1 hnd p
  · decide

/-- C7 witness: the dedup count bound applied to the concrete duplicate-title
scenario. -/
theorem c7_merge_dedup_witness :
    (⟨gameX85, ["ps5"], ["85"]⟩ : EnrichedGame).platforms.count "ps5" ≤ 1 :=
  c7_merge_dedup.1 [gameX85] [("ps5", [gameX85, gameX90])]
    ⟨gameX85, ["ps5"], ["85"]⟩ (by decide) "ps5"

/-- C8: reconciliation matches titles by exact string equality only — a merged
record whose title equals no category row's title keeps empty `platforms` and
`platform_scores`, and in particular a baseline record titled "game x" is not
merged with a category record titled "Game X". -/
theorem c8_exact_title_match :
    (∀ (main : List GameData) (platform_dfs : List (String × List GameData))
        (r : EnrichedGame), r ∈ merge_platform_dfs main platform_dfs →
        (∀ pr ∈ platform_dfs, ∀ row ∈ pr.2, row.title ≠ r.data.title) →
        r.platforms = [] ∧ r.platform_scores = []) ∧
    merge_platform_dfs [gameXlower] [("ps5", [gameX85])] =
      [⟨gameXlower, [], []⟩] := by
  constructor
  · intro main platform_dfs r hr hne
    rw [merge_eq_map] at hr
    obtain ⟨g, _, rfl⟩ := List.mem_map.1 hr
    have hdata : (enrichSteps platform_dfs ⟨g, [], []⟩).data = g :=
      enrichSteps_data platform_dfs ⟨g, [], []⟩
    have hid : enrichSteps platform_dfs ⟨g, [], []⟩ = ⟨g, [], []⟩ := by
      refine enrichSteps_of_ne platform_dfs ⟨g, [], []⟩ ?_
      intro pr hpr row hrow
      have := hne pr hpr row hrow
      rwa [hdata] at this
    rw [hid]
    exact ⟨rfl, rfl⟩
  · decide

/-- C8 witness: the exact-match property applied to the case-differing
concrete scenario. -/
theorem c8_exact_title_match_witness :
    (⟨gameXlower, [], []⟩ : EnrichedGame).platforms = [] ∧
    (⟨gameXlower, [], []⟩ : EnrichedGame).platform_scores = [] :=
  c8_exact_title_match.1 [gameXlower] [("ps5", [gameX85])]
    ⟨gameXlower, [], []⟩ (by decide) (by decide)

/-- C9: the parallel-lists invariant `len(platforms) = len(platform_scores)`
holds at every intermediate merge state reachable from an invariant-satisfying
state, holds of every record of the final merge, and merging an empty platform
dictionary leaves both lists of every record empty. -/
theorem c9_parallel_lists :
    (∀ (main : List EnrichedGame) (platform_dfs : List (String × List GameData)),
        (∀ r ∈ main, r.platforms.length = r.platform_scores.length) →
        ∀ r ∈ mergeAux main platform_dfs,
          r.platforms.length = r.platform_scores.length) ∧
    (∀ (main : List GameData) (platform_dfs : List (String × List GameData)),
        ∀ r ∈ merge_platform_dfs main platform_dfs,
          r.platforms.length = r.platform_scores.length) ∧
    (∀ main : List GameData, ∀ r ∈ merge_platform_dfs main [],
        r.platforms = [] ∧ r.platform_scores = []) := by
  refine ⟨?_, ?_, ?_⟩
  · intro main platform_dfs h r hr
    rw [mergeAux_eq_map] at hr
    obtain ⟨r0, hr0, rfl⟩ := List.mem_map.1 hr
    exact enrichSteps_len platform_dfs r0 (h r0 hr0)
  · intro main platform_dfs r hr
    rw [merge_eq_map] at hr
    obtain ⟨g, _, rfl⟩ := List.mem_map.1 hr
    exact enrichSteps_len platform_dfs ⟨g, [], []⟩ rfl
  · intro main r hr
    obtain ⟨g, _, rfl⟩ := List.mem_map.1 hr
    exact ⟨rfl, rfl⟩

/-- C9 witness: the invariant instantiated on a concrete merge. -/
theorem c9_parallel_lists_witness :
    (⟨gameX85, ["ps5"], ["90"]⟩ : EnrichedGame).platforms.length =
      (⟨gameX85, ["ps5"], ["90"]⟩ : EnrichedGame).platform_scores.length :=
  c9_parallel_lists.2.1 [gameX85] [("ps5", [gameX90])]
    ⟨gameX85, ["ps5"], ["90"]⟩ (by decide)

/-- C10: the merge changes nothing about the baseline besides the two added
columns — mapping each merged row back to its entity fields recovers the
baseline exactly (one row per baseline row, same order, all five fields
unchanged), a category row whose title matches no baseline title can be
deleted without changing the result, and the output length equals the
baseline length. -/
theorem c10_frame :
    (∀ (main : List GameData) (platform_dfs : List (String × List GameData)),
        (merge_platform_dfs main platform_dfs).map EnrichedGame.data = main) ∧
    (∀ (main : List GameData) (cats1 cats2 : List (String × List GameData))
        (p : String) (rows1 rows2 : List GameData) (row : GameData),
        (∀ g ∈ main, g.title ≠ row.title) →
        merge_platform_dfs main (cats1 ++ (p, rows1 ++ row :: rows2) :: cats2) =
          merge_platform_dfs main (cats1 ++ (p, rows1 ++ rows2) :: cats2)) ∧
    (∀ (main : List GameData) (platform_dfs : List (String × List GameData)),
        (merge_platform_dfs main platform_dfs).length = main.length) := by
  have hdata : ∀ (main : List GameData) (platform_dfs : List (String × List GameData)),
      (merge_platform_dfs main platform_dfs).map EnrichedGame.data = main := by
    intro main platform_dfs
    rw [merge_eq_map, List.map_map]
    have : ∀ g ∈ main,
        (EnrichedGame.data ∘ fun g => enrichSteps platform_dfs ⟨g, [], []⟩) g = id g :=
      fun g _ => enrichSteps_data platform_dfs ⟨g, [], []⟩
    rw [List.map_congr_left this, List.map_id]
  refine ⟨hdata, ?_, ?_⟩
  · intro main cats1 cats2 p rows1 rows2 row hne
    rw [merge_eq_map, merge_eq_map]
    refine List.map_congr_left ?_
    intro g hg
    rw [enrichSteps_append, enrichSteps_append]
    show enrichSteps cats2
        (enrichRowsFold p (rows1 ++ row :: rows2) (enrichSteps cats1 ⟨g, [], []⟩)) =
      enrichSteps cats2
        (enrichRowsFold p (rows1 ++ rows2) (enrichSteps cats1 ⟨g, [], []⟩))
    rw [enrichRowsFold_append, enrichRowsFold_append]
    have hX : updateRecord p row (enrichRowsFold p rows1 (enrichSteps cats1 ⟨g, [], []⟩)) =
        enrichRowsFold p rows1 (enrichSteps cats1 ⟨g, [], []⟩) := by
      refine updateRecord_of_ne p row _ ?_
      rw [enrichRowsFold_data, enrichSteps_data]
      exact hne g hg
    show enrichSteps cats2 (enrichRowsFold p rows2
        (updateRecord p row (enrichRowsFold p rows1 (enrichSteps cats1 ⟨g, [], []⟩)))) = _
    rw [hX]
  · intro main platform_dfs
    have := congrArg List.length (hdata main platform_dfs)
    simpa using this

/-- C10 witness: deleting a category row whose title matches no baseline
title leaves the merge result unchanged, on concrete data. -/
theorem c10_frame_witness :
    merge_platform_dfs [gameX85] [("ps5", [gameXlower])] =
      merge_platform_dfs [gameX85] [("ps5", [])] :=
  c10_frame.2.1 [gameX85] [] [] "ps5" [] [] gameXlower (by decide)

/-! ## Claim theorems for the record extractor -/

/-- A listing fragment with all four sub-fragments absent. -/
def emptyListing : GameListing := ⟨none, none, none, none⟩

theorem get_map_eq {α β : Type} (f : α → β) :
    ∀ (l : List α) (i : Nat) (h1 : i < l.length) (h2 : i < (l.map f).length),
      (l.map f).get ⟨i, h2⟩ = f (l.get ⟨i, h1⟩) := by
  intro l
  induction l with
  | nil => intro i h1 _; exact absurd h1 (Nat.not_lt_zero i)
  | cons a l ih =>
    intro i h1 h2
    cases i with
    | zero => rfl
    | succ n => exact ih n (Nat.lt_of_succ_lt_succ h1) (Nat.lt_of_succ_lt_succ h2)

/-- C3: extraction yields exactly one record per listing fragment, in fragment
order, and every field of every record is a string that falls back to its
documented sentinel when the corresponding sub-fragment is absent — no record
is dropped and no field is ever missing. -/
theorem c3_record_shape :
    (∀ doc : List GameListing, (extract_game_data doc).length = doc.length) ∧
    (∀ (doc : List GameListing) (i : Nat) (h1 : i < doc.length)
        (h2 : i < (extract_game_data doc).length),
        (extract_game_data doc).get ⟨i, h2⟩ = extractGame (doc.get ⟨i, h1⟩)) ∧
    (∀ g : GameListing,
        (g.title_section = none → (extractGame g).title = "Title not found") ∧
        (g.meta_info_section = none → (extractGame g).release_date = "Unknown" ∧
          (extractGame g).rating = "Rating not found") ∧
        (g.description_section = none →
          (extractGame g).description = "Description not found") ∧
        (g.metascore_section = none →
          (extractGame g).metascore = "Metascore not available")) := by
  refine ⟨?_, ?_, ?_⟩
  · intro doc
    simp [extract_game_data]
  · intro doc i h1 h2
    exact get_map_eq extractGame doc i h1 h2
  · intro g
    exact ⟨fun h => by simp [extractGame, extractTitle, h],
           fun h => ⟨by simp [extractGame, h], by simp [extractGame, h]⟩,
           fun h => by simp [extractGame, h],
           fun h => by simp [extractGame, h]⟩

/-- C3 witness: order preservation and the sentinel fallback on a concrete
document with one fully-degenerate fragment. -/
theorem c3_record_shape_witness :
    (extract_game_data [emptyListing]).get ⟨0, by decide⟩ =
      extractGame ([emptyListing].get ⟨0, by decide⟩) ∧
    (extractGame emptyListing).title = "Title not found" :=
  ⟨c3_record_shape.2.1 [emptyListing] 0 (by decide) (by decide),
   (c3_record_shape.2.2 emptyListing).1 rfl⟩

/-- C5: the release date comes from the first metadata token containing a
comma, parsed with the `%b %d, %Y` format into an ISO date ("Jan 5, 2020"
yields "2020-01-05"); when no comma-bearing token exists, or the token is
malformed ("Feb 30, 2020"), the field is the sentinel "Unknown", and the
extractor always produces a string (sentinel or formatted date) rather than
letting a parse error escape. -/
theorem c5_release_date :
    extractReleaseDate ⟨["Platform: PC", "Jan 5, 2020"]⟩ = "2020-01-05" ∧
    (∀ t : Tag, (∀ tok ∈ metaTokens t, containsChar ',' tok = false) →
      extractReleaseDate t = "Unknown") ∧
    extractReleaseDate ⟨["Feb 30, 2020"]⟩ = "Unknown" ∧
    (∀ t : Tag, extractReleaseDate t = "Unknown" ∨
      ∃ ymd : Nat × Nat × Nat, extractReleaseDate t = formatYmd ymd) := by
  refine ⟨by decide, ?_, by decide, ?_⟩
  · intro t h
    have hf : (metaTokens t).filter (fun s => containsChar ',' s) = [] := by
      rw [List.filter_eq_nil_iff]
      intro tok hm
      simp [h tok hm]
    simp only [extractReleaseDate, hf]
  · intro t
    rcases hfl : (metaTokens t).filter (fun s => containsChar ',' s) with _ | ⟨tok, rest⟩
    · left
      simp only [extractReleaseDate, hfl]
    · rcases hp : strptimeBdY (pyStrip tok) with _ | ymd
      · left
        simp only [extractReleaseDate, hfl, hp]
      · right
        exact ⟨ymd, by simp only [extractReleaseDate, hfl, hp]⟩

/-- C5 witness: the no-comma-token case applied to a concrete meta section. -/
theorem c5_release_date_witness :
    extractReleaseDate ⟨["PC", "Action"]⟩ = "Unknown" :=
  c5_release_date.2.1 ⟨["PC", "Action"]⟩ (by decide)

/-- C6: the rating is the word token captured after "Rated" plus whitespace in
the full metadata text ("Rated M for Mature" yields "M", text without the
pattern yields the sentinel), and rating and date extraction are independent
functions of the meta section: each is computed from the section alone, a
rating match not requiring a date match and vice versa. -/
theorem c6_rating :
    extractRating ⟨["Rated M for Mature"]⟩ = "M" ∧
    extractRating ⟨["no rating info"]⟩ = "Rating not found" ∧
    (∀ (g : GameListing) (mt : Tag), g.meta_info_section = some mt →
      (extractGame g).rating = extractRating mt ∧
      (extractGame g).release_date = extractReleaseDate mt) ∧
    (extractReleaseDate ⟨["Rated M for Mature"]⟩ = "Unknown" ∧
      extractRating ⟨["Jan 5, 2020"]⟩ = "Rating not found" ∧
      extractReleaseDate ⟨["Jan 5, 2020"]⟩ = "2020-01-05") := by
  refine ⟨by decide, by decide, ?_, by decide, by decide, by decide⟩
  intro g mt h
  exact ⟨by simp [extractGame, h], by simp [extractGame, h]⟩

/-- C6 witness: the independence clause applied to a concrete listing whose
meta section has a rating but no date. -/
theorem c6_rating_witness :
    (extractGame ⟨none, some ⟨["Rated M for Mature"]⟩, none, none⟩).rating =
      extractRating ⟨["Rated M for Mature"]⟩ ∧
    (extractGame ⟨none, some ⟨["Rated M for Mature"]⟩, none, none⟩).release_date =
      extractReleaseDate ⟨["Rated M for Mature"]⟩ :=
  c6_rating.2.2.1 ⟨none, some ⟨["Rated M for Mature"]⟩, none, none⟩
    ⟨["Rated M for Mature"]⟩ rfl

/-! ## Claim theorem for the title enumeration regex (C4) -/

/-- Character list of a run of `,\d{3}` thousands groups. -/
def enumGroups (gs : List (Char × Char × Char)) : List Char :=
  gs.foldr (fun g acc => ',' :: g.1 :: g.2.1 :: g.2.2 :: acc) []

theorem dropDigits_exact : ∀ (d rest : List Char), (∀ c ∈ d, c.isDigit) →
    dropDigits d.length (d ++ rest) = some rest := by
  intro d
  induction d with
  | nil => intro rest _; rfl
  | cons c d ih =>
    intro rest h
    have hstep : dropDigits (c :: d).length ((c :: d) ++ rest) =
        if c.isDigit then dropDigits d.length (d ++ rest) else none := rfl
    rw [hstep, if_pos (h c (by simp)), ih rest (fun c2 hc2 => h c2 (by simp [hc2]))]

theorem dropDigits_two_not (a x : Char) (t : List Char) (n : Nat) (hx : x.isDigit = false) :
    dropDigits (n + 2) (a :: x :: t) = none := by
  have hstep : dropDigits (n + 2) (a :: x :: t) =
      if a.isDigit then (if x.isDigit then dropDigits n t else none) else none := rfl
  rw [hstep, hx]
  simp

theorem dropDigits_three_not (a b x : Char) (t : List Char) (n : Nat)
    (hx : x.isDigit = false) : dropDigits (n + 3) (a :: b :: x :: t) = none := by
  have hstep : dropDigits (n + 3) (a :: b :: x :: t) =
      if a.isDigit then
        (if b.isDigit then (if x.isDigit then dropDigits n t else none) else none)
      else none := rfl
  rw [hstep, hx]
  simp

theorem dropGroups_cons_ne (x : Char) (l : List Char) (h : x ≠ ',') :
    dropGroups (x :: l) = x :: l := by
  rcases l with _ | ⟨a, l⟩
  · rfl
  rcases l with _ | ⟨b, l⟩
  · rfl
  rcases l with _ | ⟨c, l⟩
  · rfl
  · simp [dropGroups, h]

theorem dropGroups_group (a b c : Char) (l : List Char)
    (ha : a.isDigit) (hb : b.isDigit) (hc : c.isDigit) :
    dropGroups (',' :: a :: b :: c :: l) = dropGroups l := by
  simp [dropGroups, ha, hb, hc]

theorem dropGroups_enum : ∀ (gs : List (Char × Char × Char)) (rest : List Char),
    (∀ g ∈ gs, g.1.isDigit ∧ g.2.1.isDigit ∧ g.2.2.isDigit) →
    dropGroups (enumGroups gs ++ '.' :: rest) = '.' :: rest := by
  intro gs
  induction gs with
  | nil => intro rest _; exact dropGroups_cons_ne '.' rest (by decide)
  | cons g gs ih =>
    intro rest h
    show dropGroups (',' :: g.1 :: g.2.1 :: g.2.2 :: (enumGroups gs ++ '.' :: rest)) =
      '.' :: rest
    rw [dropGroups_group _ _ _ _ (h g (by simp)).1 (h g (by simp)).2.1 (h g (by simp)).2.2]
    exact ih rest (fun g2 hg2 => h g2 (by simp [hg2]))

theorem enumTail_exact (d : List Char) (gs : List (Char × Char × Char)) (rest : List Char)
    (hd : ∀ c ∈ d, c.isDigit)
    (hgs : ∀ g ∈ gs, g.1.isDigit ∧ g.2.1.isDigit ∧ g.2.2.isDigit) :
    enumTail d.length (d ++ (enumGroups gs ++ '.' :: rest)) = some rest := by
  have hunf : enumTail d.length (d ++ (enumGroups gs ++ '.' :: rest)) =
      match dropDigits d.length (d ++ (enumGroups gs ++ '.' :: rest)) with
      | none => none
      | some l1 =>
        match dropGroups l1 with
        | '.' :: r => some r
        | _ => none := rfl
  rw [hunf, dropDigits_exact d _ hd]
  show (match dropGroups (enumGroups gs ++ '.' :: rest) with
        | '.' :: r => some r
        | _ => none) = some rest
  rw [dropGroups_enum gs rest hgs]
  rfl

theorem enumTail_none (n : Nat) (l : List Char) (h : dropDigits n l = none) :
    enumTail n l = none := by
  unfold enumTail
  rw [h]

theorem enumHead (gs : List (Char × Char × Char)) (rest : List Char) :
    ∃ x t, enumGroups gs ++ '.' :: rest = x :: t ∧ x.isDigit = false := by
  cases gs with
  | nil => exact ⟨'.', rest, rfl, by decide⟩
  | cons g gs =>
    exact ⟨',', g.1 :: g.2.1 :: g.2.2 :: (enumGroups gs ++ '.' :: rest), rfl, by decide⟩

/-- C4: title extraction strips a leading enumeration of one to three digits,
optionally thousands-grouped, followed by a period (for any such prefix and
any remainder, the prefix is removed), then trims whitespace; "1,234. Super
Game" becomes "Super Game", "Super Game" is returned unchanged, and an absent
title sub-fragment yields the sentinel "Title not found". -/
theorem c4_title_enumeration :
    (∀ (d : List Char) (gs : List (Char × Char × Char)) (rest : List Char),
        d ≠ [] → d.length ≤ 3 → (∀ c ∈ d, c.isDigit) →
        (∀ g ∈ gs, g.1.isDigit ∧ g.2.1.isDigit ∧ g.2.2.isDigit) →
        subEnum (String.mk (d ++ (enumGroups gs ++ '.' :: rest))) = String.mk rest) ∧
    (∀ t : Tag, extractTitle (some t) = pyStrip (subEnum t.getTextStrip)) ∧
    extractTitle (some ⟨["1,234. Super Game"]⟩) = "Super Game" ∧
    extractTitle (some ⟨["Super Game"]⟩) = "Super Game" ∧
    extractTitle none = "Title not found" := by
  refine ⟨?_, fun t => rfl, by decide, by decide, rfl⟩
  intro d gs rest hne hlen hd hgs
  rcases d with _ | ⟨a, d⟩
  · exact absurd rfl hne
  rcases d with _ | ⟨b, d⟩
  · -- one leading digit
    obtain ⟨x, t, hxeq, hxd⟩ := enumHead gs rest
    have he1 : enumTail 1 (a :: (enumGroups gs ++ '.' :: rest)) = some rest :=
      enumTail_exact [a] gs rest hd hgs
    have h3 : enumTail 3 (a :: (enumGroups gs ++ '.' :: rest)) = none := by
      rw [hxeq]
      exact enumTail_none 3 _ (dropDigits_two_not a x t 1 hxd)
    have h2 : enumTail 2 (a :: (enumGroups gs ++ '.' :: rest)) = none := by
      rw [hxeq]
      exact enumTail_none 2 _ (dropDigits_two_not a x t 0 hxd)
    have hm : enumMatch (a :: (enumGroups gs ++ '.' :: rest)) = some rest := by
      have hunf : enumMatch (a :: (enumGroups gs ++ '.' :: rest)) =
          match enumTail 3 (a :: (enumGroups gs ++ '.' :: rest)) with
          | some r => some r
          | none =>
            match enumTail 2 (a :: (enumGroups gs ++ '.' :: rest)) with
            | some r => some r
            | none => enumTail 1 (a :: (enumGroups gs ++ '.' :: rest)) := rfl
      rw [hunf, h3, h2]
      exact he1
    have hsub : subEnum (String.mk (a :: (enumGroups gs ++ '.' :: rest))) =
        match enumMatch (a :: (enumGroups gs ++ '.' :: rest)) with
        | some r => String.mk r
        | none => String.mk (a :: (enumGroups gs ++ '.' :: rest)) := rfl
    show subEnum (String.mk (a :: (enumGroups gs ++ '.' :: rest))) = String.mk rest
    rw [hsub, hm]
  rcases d with _ | ⟨c2, d⟩
  · -- two leading digits
    obtain ⟨x, t, hxeq, hxd⟩ := enumHead gs rest
    have he2 : enumTail 2 (a :: b :: (enumGroups gs ++ '.' :: rest)) = some rest :=
      enumTail_exact [a, b] gs rest hd hgs
    have h3 : enumTail 3 (a :: b :: (enumGroups gs ++ '.' :: rest)) = none := by
      rw [hxeq]
      exact enumTail_none 3 _ (dropDigits_three_not a b x t 0 hxd)
    have hm : enumMatch (a :: b :: (enumGroups gs ++ '.' :: rest)) = some rest := by
      have hunf : enumMatch (a :: b :: (enumGroups gs ++ '.' :: rest)) =
          match enumTail 3 (a :: b :: (enumGroups gs ++ '.' :: rest)) with
          | some r => some r
          | none =>
            match enumTail 2 (a :: b :: (enumGroups gs ++ '.' :: rest)) with
            | some r => some r
            | none => enumTail 1 (a :: b :: (enumGroups gs ++ '.' :: rest)) := rfl
      rw [hunf, h3, he2]
    have hsub : subEnum (String.mk (a :: b :: (enumGroups gs ++ '.' :: rest))) =
        match enumMatch (a :: b :: (enumGroups gs ++ '.' :: rest)) with
        | some r => String.mk r
        | none => String.mk (a :: b :: (enumGroups gs ++ '.' :: rest)) := rfl
    show subEnum (String.mk (a :: b :: (enumGroups gs ++ '.' :: rest))) = String.mk rest
    rw [hsub, hm]
  rcases d with _ | ⟨x4, d⟩
  · -- three leading digits
    have he3 : enumTail 3 (a :: b :: c2 :: (enumGroups gs ++ '.' :: rest)) = some rest :=
      enumTail_exact [a, b, c2] gs rest hd hgs
    have hm : enumMatch (a :: b :: c2 :: (enumGroups gs ++ '.' :: rest)) = some rest := by
      have hunf : enumMatch (a :: b :: c2 :: (enumGroups gs ++ '.' :: rest)) =
          match enumTail 3 (a :: b :: c2 :: (enumGroups gs ++ '.' :: rest)) with
          | some r => some r
          | none =>
            match enumTail 2 (a :: b :: c2 :: (enumGroups gs ++ '.' :: rest)) with
            | some r => some r
            | none => enumTail 1 (a :: b :: c2 :: (enumGroups gs ++ '.' :: rest)) := rfl
      rw [hunf, he3]
    have hsub : subEnum (String.mk (a :: b :: c2 :: (enumGroups gs ++ '.' :: rest))) =
        match enumMatch (a :: b :: c2 :: (enumGroups gs ++ '.' :: rest)) with
        | some r => String.mk r
        | none => String.mk (a :: b :: c2 :: (enumGroups gs ++ '.' :: rest)) := rfl
    show subEnum (String.mk (a :: b :: c2 :: (enumGroups gs ++ '.' :: rest))) =
      String.mk rest
    rw [hsub, hm]
  · simp only [List.length_cons] at hlen
    omega

/-- C4 witness: the general stripping clause applied to the digits and group
of "1,234." with remainder " Super Game". -/
theorem c4_title_enumeration_witness :
    subEnum (String.mk (['1'] ++ (enumGroups [('2', '3', '4')] ++ '.' :: " Super Game".data))) =
      String.mk " Super Game".data :=
  c4_title_enumeration.1 ['1'] [('2', '3', '4')] " Super Game".data
    (by decide) (by decide) (by decide) (by decide)

/-! ## Claim theorems for the pagination loop -/

/-- A concrete listing fragment used in loop instances. -/
def sampleListing : GameListing :=
  ⟨some ⟨["1. Game A"]⟩, some ⟨["Jan 5, 2020", "Rated M for Mature"]⟩,
   some ⟨["A description"]⟩, some ⟨["85"]⟩⟩

/-- A second concrete listing fragment. -/
def sampleListing2 : GameListing := ⟨some ⟨["2. Game B"]⟩, none, none, none⟩

/-- A page plan: pages 1 and 2 succeed with one fragment each, page 3
succeeds with zero fragments. -/
def netThreePages : Nat → FetchOutcome := fun page =>
  if page = 1 then .response 200 [sampleListing]
  else if page = 2 then .response 200 [sampleListing2]
  else .response 200 []

/-- A page plan whose every fetch returns a non-success status. -/
def netBadStatus : Nat → FetchOutcome := fun _ => .response 404 []

/-- C1: each loop iteration performs one fetch attempt starting from page 1;
on a successful non-empty page the loop appends that page's records and
proceeds to the next page, for a page plan of [records, records, zero
fragments] it returns exactly the two pages' records in page order after
exactly 3 fetch attempts, and when the very first fetch fails it returns the
empty sequence after exactly 1 fetch attempt. -/
theorem c1_pagination_termination :
    (∀ (net : Nat → FetchOutcome) (fuel page att : Nat) (acc : List GameData)
        (doc : List GameListing), net page = .response 200 doc → doc ≠ [] →
        scrapeLoop net (fuel + 1) page acc att =
          scrapeLoop net fuel (page + 1) (acc ++ extract_game_data doc) (att + 1)) ∧
    (∀ (net : Nat → FetchOutcome) (d1 d2 : List GameListing) (fuel : Nat),
        net 1 = .response 200 d1 → net 2 = .response 200 d2 →
        net 3 = .response 200 [] → d1 ≠ [] → d2 ≠ [] →
        collectScope net (fuel + 3) =
          some (.ok (extract_game_data d1 ++ extract_game_data d2, 3))) ∧
    (∀ (net : Nat → FetchOutcome) (status : Nat) (doc : List GameListing) (fuel : Nat),
        status ≠ 200 → net 1 = .response status doc →
        collectScope net (fuel + 1) = some (.ok ([], 1))) := by
  have hstep : ∀ (net : Nat → FetchOutcome) (fuel page att : Nat) (acc : List GameData)
      (doc : List GameListing), net page = .response 200 doc → doc ≠ [] →
      scrapeLoop net (fuel + 1) page acc att =
        scrapeLoop net fuel (page + 1) (acc ++ extract_game_data doc) (att + 1) := by
    intro net fuel page att acc doc hnet hne
    obtain ⟨a, t, rfl⟩ := List.exists_cons_of_ne_nil hne
    simp [scrapeLoop, fetch_and_parse, hnet]
  refine ⟨hstep, ?_, ?_⟩
  · intro net d1 d2 fuel h1 h2 h3 hd1 hd2
    show scrapeLoop net ((fuel + 2) + 1) 1 [] 0 =
      some (.ok (extract_game_data d1 ++ extract_game_data d2, 3))
    rw [hstep net (fuel + 2) 1 0 [] d1 h1 hd1]
    show scrapeLoop net ((fuel + 1) + 1) 2 ([] ++ extract_game_data d1) 1 = _
    rw [hstep net (fuel + 1) 2 1 ([] ++ extract_game_data d1) d2 h2 hd2]
    simp [scrapeLoop, fetch_and_parse, h3]
  · intro net status doc fuel hst h1
    simp [collectScope, scrapeLoop, fetch_and_parse, h1, hst]

/-- C1 witness: the three-page plan returns both pages' records after 3 fetch
attempts, and the all-404 plan returns nothing after 1 fetch attempt. -/
theorem c1_pagination_termination_witness :
    collectScope netThreePages 3 =
      some (.ok (extract_game_data [sampleListing] ++ extract_game_data [sampleListing2], 3)) ∧
    collectScope netBadStatus 1 = some (.ok ([], 1)) :=
  ⟨c1_pagination_termination.2.1 netThreePages [sampleListing] [sampleListing2] 0
      rfl rfl rfl (by decide) (by decide),
   c1_pagination_termination.2.2 netBadStatus 404 [] 0 (by decide) rfl⟩

/-- C2 counterexample: when `requests.get` raises a transport exception on the
very first page, the loop result is a propagated exception, not the records
accumulated so far — the claim that a network failure stops the loop
gracefully with no propagated exception is false on the code, which wraps no
handler around `requests.get`. -/
theorem c2_counterexample :
    collectScope (fun _ => FetchOutcome.raised) 1 = some (.error ()) ∧
    (some (Except.error ()) : Option (Except Unit (List GameData × Nat))) ≠
      some (.ok ([], 1)) :=
  ⟨rfl, by simp⟩

/-- C2 amended: whenever the page fetcher returns a non-success HTTP status,
the pagination loop stops with the records accumulated so far and no
exception reaches the caller (the failure is only logged); a transport-level
network failure, by contrast, raises inside `requests.get` and propagates out
of the loop uncaught. -/
theorem c2_fetch_failure_amended :
    (∀ (net : Nat → FetchOutcome) (fuel page att : Nat) (acc : List GameData)
        (status : Nat) (doc : List GameListing),
        net page = .response status doc → status ≠ 200 →
        scrapeLoop net (fuel + 1) page acc att = some (.ok (acc, att + 1))) ∧
    (∀ (net : Nat → FetchOutcome) (fuel page att : Nat) (acc : List GameData),
        net page = .raised →
        scrapeLoop net (fuel + 1) page acc att = some (.error ())) := by
  constructor
  · intro net fuel page att acc status doc hnet hst
    simp [scrapeLoop, fetch_and_parse, hnet, hst]
  · intro net fuel page att acc hnet
    simp [scrapeLoop, fetch_and_parse, hnet]

/-- C2 witness: a mid-run non-success status stops the loop with the records
accumulated so far and one more fetch attempt counted. -/
theorem c2_fetch_failure_amended_witness :
    scrapeLoop netBadStatus 1 5 [gameX85] 7 = some (.ok ([gameX85], 8)) :=
  c2_fetch_failure_amended.1 netBadStatus 0 5 7 [gameX85] 404 [] rfl (by decide)

end Metacritic
